import Mathlib

/-!
Shallow embedding of the conversation-state and recommendation-orchestration layer of
the loan-counselor service (src/loan_counselor_agent.py), together with the request
dispatch fragment of the web layer (src/part-4-full-project/app.py) that consumes it.

External collaborators (the language model, the recommendation store's similarity
query, the lender store's search) are modelled as an environment of fallible
functions, following the collaborator contracts the specification fixes for them.
Python exceptions are modelled with `Except String`; the per-user conversation
memory map is an association list.
-/

namespace LoanAgent

/-- A student-details mapping (Python dict). Values are rendered as their textual
form wherever the source interpolates them, so they are kept as strings. -/
abbrev StudentDetails := List (String × String)

/-- Dictionary lookup: first binding of the key, as Python `d[k]` / `d.get(k)`. -/
def dget (d : List (String × String)) (k : String) : Option String :=
  match d with
  | [] => none
  | (k1, v) :: rest => if k1 = k then some v else dget rest k

/-- One entry of a conversation history, as seen by the summary comprehension in
`_prepare_recommendation_inputs`: a message object carrying `type`/`content`
attributes, a plain dict, or any other value (rendered via Python `str`). -/
inductive HistEntry where
  | msg (type content : String) : HistEntry
  | dict (entries : List (String × String)) : HistEntry
  | raw (s : String) : HistEntry
deriving Repr, DecidableEq

/-- A lender catalog entry, restricted to the fields `format_lenders_data` reads. -/
structure Lender where
  name : String
  interest_rate : String
  maximum_amount : String
deriving Repr, DecidableEq

/-- `helpers.format_lenders_data`: one text block per lender, blocks separated by
blank lines. -/
def format_lenders_data (lenders : List Lender) : String :=
  String.intercalate "\n\n" (lenders.map (fun lender =>
    lender.name ++ ":\n" ++
    "- Interest Rate: " ++ lender.interest_rate ++ "\n" ++
    "- Maximum Amount: " ++ lender.maximum_amount ++ "\n"))

/-- A record appended to the recommendation history store by
`store_recommendation(student_details=…, recommendation=…, metadata={'user_id': …})`. -/
structure RecRecord where
  student_details : StudentDetails
  recommendation : String
  user_id : String
deriving Repr, DecidableEq

/-- The agent's mutable state: the static lender catalog, the per-user
conversation memory map (`self.memory`), and the recommendation history store. -/
structure Agent where
  lenders : List Lender
  memory : List (String × List HistEntry)
  recStore : List RecRecord
deriving Repr, DecidableEq

/-- The agent right after `__init__`: empty memory map, empty history store. -/
def init_agent (lenders : List Lender) : Agent :=
  { lenders := lenders, memory := [], recStore := [] }

/-- Lookup in the per-user memory map. -/
def lookupMem (m : List (String × List HistEntry)) (user_id : String) :
    Option (List HistEntry) :=
  match m with
  | [] => none
  | (k, v) :: rest => if k = user_id then some v else lookupMem rest user_id

/-- Update the named user's buffer in place, as mutation through the
`ConversationBufferMemory` object held in the map. -/
def updateMem : List (String × List HistEntry) → String →
    (List HistEntry → List HistEntry) → List (String × List HistEntry)
  | [], _, _ => []
  | (k, v) :: rest, user_id, f =>
    (k, if k = user_id then f v else v) :: updateMem rest user_id f

/-- `get_user_memory`: get-or-create; inserts an empty buffer when the user has
none (Python dict insertion appends the new key at the end). -/
def get_user_memory (a : Agent) (user_id : String) : Agent :=
  match lookupMem a.memory user_id with
  | some _ => a
  | none => { a with memory := a.memory ++ [(user_id, [])] }

/-- The turns currently held for a user (empty when the user has no buffer);
the value `load_memory_variables({}).get('conversation_history_<uid>', [])` yields. -/
def historyOf (a : Agent) (user_id : String) : List HistEntry :=
  (lookupMem a.memory user_id).getD []

/-- `_get_conversation_history`: calls `get_user_memory` (which may create an
empty buffer) and returns the buffer's messages. -/
def _get_conversation_history (a : Agent) (user_id : String) :
    Agent × List HistEntry :=
  let a1 := get_user_memory a user_id
  (a1, historyOf a1 user_id)

/-- `ConversationBufferMemory.save_context({"input": i}, {"output": o})`: appends a
human turn then an ai turn to the existing buffer. -/
def save_context (a : Agent) (user_id input output : String) : Agent :=
  { a with memory := (updateMem a.memory user_id
      (fun h => h ++ [HistEntry.msg "human" input, HistEntry.msg "ai" output])) }

/-- Modelled from the spec: `LoanRecommendationStore.store_recommendation` (the file
vector_store/loan_recommendations.py is not under src/). §3/§6: the store is
append-only and the write is fire-and-forget. -/
def store_recommendation (a : Agent) (student_details : StudentDetails)
    (recommendation user_id : String) : Agent :=
  { a with recStore := a.recStore ++ [⟨student_details, recommendation, user_id⟩] }

/-- `reset_conversation`: `self.memory.pop(user_id, None)` — removes the user's
entry, silently doing nothing when absent. -/
def reset_conversation (a : Agent) (user_id : String) : Agent :=
  { a with memory := a.memory.filter (fun p => !(p.1 == user_id)) }

/-- One line of the conversation summary comprehension in
`_prepare_recommendation_inputs`: an object with a `content` attribute renders as
"type: content", a dict via `.get` with defaults, anything else via `str`. -/
def summaryLine : HistEntry → String
  | HistEntry.msg t c => t ++ ": " ++ c
  | HistEntry.dict d => (dget d "type").getD "Unknown" ++ ": " ++ (dget d "content").getD ""
  | HistEntry.raw s => s

/-- Python `str()` of one history entry, as fed to the follow-up prompt. Exact
text mirrors the message repr; the claims depend only on it being a pure function. -/
def strOfEntry : HistEntry → String
  | HistEntry.msg t c => "Message(type=" ++ t ++ ", content=" ++ c ++ ")"
  | HistEntry.dict d =>
    "\x7b" ++ String.intercalate ", " (d.map (fun p => p.1 ++ ": " ++ p.2)) ++ "\x7d"
  | HistEntry.raw s => s

/-- Python `str()` of the conversation-history list. -/
def strOfHistory (h : List HistEntry) : String :=
  "[" ++ String.intercalate ", " (h.map strOfEntry) ++ "]"

/-- External collaborators, at the contract boundary the spec fixes (§6): the
similarity query and lender search may raise; the model client generates text from
a prompt and may raise; JSON serialization of student details is pure. -/
structure Env where
  findSimilar : StudentDetails → Except String String
  searchLenders : String → Except String String
  predict : String → Except String String
  jsonDumps : StudentDetails → String

/-- Collaborator invocations and persistence side effects observable during one
orchestrator call. -/
inductive Event where
  | similarCall : Event
  | searchCall (query : String) : Event
  | predictCall (prompt : String) : Event
  | memWrite (user_id : String) : Event
  | storeWrite : Event
deriving Repr, DecidableEq

def isPredict : Event → Bool
  | Event.predictCall _ => true
  | _ => false

/-- The prompt-input bundle `_prepare_recommendation_inputs` returns. -/
structure Inputs where
  lenders_data : String
  student_details : String
  similar_cases : String
  matching_lenders : String
  student_message : String
  conversation_history : String
deriving Repr, DecidableEq

/-- Modelled from the spec: the fixed recommendation prompt template (prompts.py,
which defines INITIAL_PROMPT, is not under src/). §4.3: substitutes the four named
inputs into a fixed template, with no conditional logic. -/
def recommendation_prompt (lenders_data student_details conversation_history
    student_message : String) : String :=
  "You are a loan counselor for students.\n" ++
  "Available lenders:\n" ++ lenders_data ++ "\n" ++
  "Student details:\n" ++ student_details ++ "\n" ++
  "Conversation so far:\n" ++ conversation_history ++ "\n" ++
  "Student message:\n" ++ student_message

/-- Modelled from the spec: the fixed follow-up-question template (prompts.py,
which defines QUERY_RECOMMENDATION_PROMPT, is not under src/). §4.3: substitutes
conversation history and current query into a fixed template. -/
def followup_prompt (conversation_history query : String) : String :=
  "Suggest follow-up questions.\n" ++
  "Conversation history:\n" ++ conversation_history ++ "\n" ++
  "Current query:\n" ++ query

/-- `_prepare_recommendation_inputs`: the four context fetches are submitted to the
pool (the similarity query first, then the lender search — whose query string is
built eagerly and raises KeyError on a missing student field before the search is
submitted), the summary comprehension runs synchronously, and the results are
collected; the first failure, in Python's observation order, aborts the bundle.
Returns the bundle (or the error) together with the collaborator calls issued. -/
def _prepare_recommendation_inputs (env : Env) (lenders : List Lender)
    (student_details : StudentDetails) (student_message : String)
    (conversation_history : List HistEntry) :
    Except String Inputs × List Event :=
  match dget student_details "destination_country" with
  | none => (Except.error "'destination_country'", [Event.similarCall])
  | some dest =>
    match dget student_details "loan_amount_needed" with
    | none => (Except.error "'loan_amount_needed'", [Event.similarCall])
    | some amt =>
      let events := [Event.similarCall, Event.searchCall (dest ++ " " ++ amt)]
      match env.findSimilar student_details with
      | Except.error e => (Except.error e, events)
      | Except.ok similar =>
        match env.searchLenders (dest ++ " " ++ amt) with
        | Except.error e => (Except.error e, events)
        | Except.ok matching =>
          (Except.ok
            { lenders_data := format_lenders_data lenders,
              student_details := env.jsonDumps student_details,
              similar_cases := similar,
              matching_lenders := matching,
              student_message := student_message,
              conversation_history :=
                String.intercalate "\n" (conversation_history.map summaryLine) },
           events)

/-- `get_query_recommendation`: reloads the history, renders the follow-up prompt,
calls the model; any exception is caught and turned into an inline error string. -/
def get_query_recommendation (env : Env) (a : Agent) (query user_id : String) :
    Agent × String × List Event :=
  let a1 := (_get_conversation_history a user_id).1
  let hist := (_get_conversation_history a user_id).2
  let prompt := followup_prompt (strOfHistory hist) query
  match env.predict prompt with
  | Except.ok r => (a1, r, [Event.predictCall prompt])
  | Except.error e =>
    (a1, "An error occurred while generating question recommendations: " ++ e,
     [Event.predictCall prompt])

/-- The value, final state and observable trace of one orchestrator call. The
returned dict is an association list of string keys. -/
structure RunResult where
  agent : Agent
  result : List (String × String)
  trace : List Event
deriving Repr, DecidableEq

/-- `get_loan_recommendation`: get-or-create memory, read history, aggregate
context, issue the two model calls (the follow-up sub-pipeline is submitted before
the main response is awaited, so it runs even when the main call fails), then — on
success only — append the turn pair to memory and store the recommendation. Any
exception is caught at the top and returned as a structured error dict. -/
def get_loan_recommendation (env : Env) (a : Agent)
    (student_details : StudentDetails) (student_message user_id : String) :
    RunResult :=
  let a1 := get_user_memory a user_id
  let hist := (_get_conversation_history a1 user_id).2
  let prep := _prepare_recommendation_inputs env a1.lenders student_details
    student_message hist
  match prep.1 with
  | Except.error e =>
    { agent := a1,
      result := [("error", "An error occurred while generating a recommendation: " ++ e)],
      trace := prep.2 }
  | Except.ok inputs =>
    let mainPrompt := recommendation_prompt inputs.lenders_data inputs.student_details
      inputs.conversation_history inputs.student_message
    let q := get_query_recommendation env a1 student_message user_id
    match env.predict mainPrompt with
    | Except.error e =>
      { agent := q.1,
        result := [("error", "An error occurred while generating a recommendation: " ++ e)],
        trace := prep.2 ++ [Event.predictCall mainPrompt] ++ q.2.2 }
    | Except.ok response =>
      let a3 := save_context q.1 user_id student_message response
      let a4 := store_recommendation a3 student_details response user_id
      { agent := a4,
        result := [("response", response), ("query_recommendation", q.2.1)],
        trace := prep.2 ++ [Event.predictCall mainPrompt] ++ q.2.2 ++
          [Event.memWrite user_id, Event.storeWrite] }

/-- The successful main-model response of one orchestrator call, as a function of
the environment, the catalog, the request and the user's history at call time:
`some r` exactly when context aggregation and the main model call both succeed. -/
def mainResponse (env : Env) (lenders : List Lender) (student_details : StudentDetails)
    (student_message : String) (hist : List HistEntry) : Option String :=
  match (_prepare_recommendation_inputs env lenders student_details student_message hist).1 with
  | Except.error _ => none
  | Except.ok inputs =>
    match env.predict (recommendation_prompt inputs.lenders_data inputs.student_details
        inputs.conversation_history inputs.student_message) with
    | Except.error _ => none
    | Except.ok r => some r

/-- Whether a returned dict is the success shape
`{response: …, query_recommendation: …}`. -/
def resultIsOk : List (String × String) → Bool
  | [(k1, _), (k2, _)] => k1 == "response" && k2 == "query_recommendation"
  | _ => false

/-- One inbound request to the orchestrator. -/
structure Call where
  sd : StudentDetails
  msg : String
  uid : String
deriving Repr, DecidableEq

/-- Process a sequence of requests through the orchestrator, threading the state. -/
def runCalls (env : Env) : Agent → List Call → Agent
  | a, [] => a
  | a, c :: cs => runCalls env (get_loan_recommendation env a c.sd c.msg c.uid).agent cs

/-- Every call in the sequence returns the success shape. -/
def allSucceed (env : Env) : Agent → List Call → Bool
  | _, [] => true
  | a, c :: cs =>
    resultIsOk (get_loan_recommendation env a c.sd c.msg c.uid).result &&
      allSucceed env (get_loan_recommendation env a c.sd c.msg c.uid).agent cs

/-- The turns a sequence of calls appends to one user's history, given that
history's starting value: each successful call contributes its student turn and
the counselor response; a failed call contributes nothing. -/
def turnsFor (env : Env) (lenders : List Lender) : List HistEntry → List Call → List HistEntry
  | _, [] => []
  | hist, c :: cs =>
    match mainResponse env lenders c.sd c.msg hist with
    | some r =>
      HistEntry.msg "human" c.msg :: HistEntry.msg "ai" r ::
        turnsFor env lenders (hist ++ [HistEntry.msg "human" c.msg, HistEntry.msg "ai" r]) cs
    | none => turnsFor env lenders hist cs

/-- A student turn (LangChain renders the student side as a human message). -/
def isHuman : HistEntry → Bool
  | HistEntry.msg t _ => t == "human"
  | _ => false

/-- A counselor turn (the model side is an ai message). -/
def isAi : HistEntry → Bool
  | HistEntry.msg t _ => t == "ai"
  | _ => false

/-- The history alternates in student/counselor pairs. -/
def alternatingTurns : List HistEntry → Bool
  | [] => true
  | [_] => false
  | x :: y :: rest => isHuman x && isAi y && alternatingTurns rest

/-- The contents of the student turns, in order. -/
def studentContents (l : List HistEntry) : List String :=
  l.filterMap (fun e => match e with
    | HistEntry.msg t c => if t = "human" then some c else none
    | _ => none)

/-- Python truthiness of the returned dict: a dict is falsy exactly when empty. -/
def resultTruthy (r : List (String × String)) : Bool := !r.isEmpty

/-- The dispatch fragment of `handle_chat_request` (part-4-full-project/app.py):
the first orchestrator call's result is used when truthy; otherwise the request is
re-submitted through the pool and that second result is awaited. -/
def handle_chat_dispatch (env : Env) (a : Agent) (student_details : StudentDetails)
    (message user_id : String) : RunResult :=
  let first := get_loan_recommendation env a student_details message user_id
  if resultTruthy first.result then first
  else get_loan_recommendation env first.agent student_details message user_id

/-! ### Concrete values for executing the model on closed inputs -/

/-- A concrete student-details mapping. -/
def sdW : StudentDetails := [("destination_country", "USA"), ("loan_amount_needed", "50000")]

/-- A freshly constructed agent with an empty catalog. -/
def agentW : Agent := init_agent []

/-- An environment in which every collaborator succeeds. -/
def envOK : Env :=
  { findSimilar := fun _ => Except.ok "S",
    searchLenders := fun _ => Except.ok "L",
    predict := fun _ => Except.ok "R",
    jsonDumps := fun _ => "\x7b\x7d" }

/-- An environment whose lender search raises a backend error. -/
def envSearchFail : Env :=
  { findSimilar := fun _ => Except.ok "S",
    searchLenders := fun _ => Except.error "search backend down",
    predict := fun _ => Except.ok "R",
    jsonDumps := fun _ => "\x7b\x7d" }

/-- An environment in which only the follow-up model call fails. -/
def envFollowupFail : Env :=
  { findSimilar := fun _ => Except.ok "S",
    searchLenders := fun _ => Except.ok "L",
    predict := fun p =>
      if p = followup_prompt (strOfHistory []) "hi" then Except.error "model down"
      else Except.ok "MAIN",
    jsonDumps := fun _ => "\x7b\x7d" }

/-- Two concrete calls for the same user with identical content. -/
def callsW : List Call := [⟨sdW, "hello", "u1"⟩, ⟨sdW, "hello", "u1"⟩]

/-- A conversation history containing a message object, a dict lacking a type
key, and a malformed raw entry. -/
def histW : List HistEntry :=
  [HistEntry.msg "human" "hi", HistEntry.dict [("content", "x")], HistEntry.raw "weird"]

/-- The input bundle the aggregator produces for `envFollowupFail`, the empty
catalog, `sdW`, message "hi" and an empty history. -/
def inputsC3 : Inputs :=
  { lenders_data := "", student_details := "\x7b\x7d", similar_cases := "S",
    matching_lenders := "L", student_message := "hi", conversation_history := "" }

/-- The input bundle the aggregator produces for `envOK`, the empty catalog,
`sdW`, message "hi" and the history `histW`. -/
def inputsC8 : Inputs :=
  { lenders_data := "", student_details := "\x7b\x7d", similar_cases := "S",
    matching_lenders := "L", student_message := "hi",
    conversation_history := "human: hi\nUnknown: x\nweird" }

/-! ### Helper lemmas about the memory map -/

theorem lookupMem_append (m : List (String × List HistEntry)) (u v : String)
    (x : List HistEntry) :
    lookupMem (m ++ [(u, x)]) v =
      match lookupMem m v with
      | some w => some w
      | none => if u = v then some x else none := by
  induction m with
  | nil => simp [lookupMem]
  | cons p rest ih =>
    by_cases h : p.1 = v
    · simp [lookupMem, h]
    · simp [lookupMem, h, ih]

theorem lookupMem_updateMem_self (m : List (String × List HistEntry)) (u : String)
    (f : List HistEntry → List HistEntry) :
    lookupMem (updateMem m u f) u = (lookupMem m u).map f := by
  induction m with
  | nil => rfl
  | cons p rest ih =>
    obtain ⟨k, v⟩ := p
    by_cases h : k = u
    · subst h
      simp [lookupMem, updateMem]
    · simp [lookupMem, updateMem, h, ih]

theorem lookupMem_updateMem_ne (m : List (String × List HistEntry)) (u v : String)
    (f : List HistEntry → List HistEntry) (hne : v ≠ u) :
    lookupMem (updateMem m u f) v = lookupMem m v := by
  induction m with
  | nil => rfl
  | cons p rest ih =>
    obtain ⟨k, w⟩ := p
    by_cases h : k = u
    · subst h
      have hkv : ¬k = v := fun hc => hne hc.symm
      simp [lookupMem, updateMem, hkv, ih]
    · simp [lookupMem, updateMem, h, ih]

theorem lookupMem_filter_self (m : List (String × List HistEntry)) (u : String) :
    lookupMem (m.filter (fun p => !(p.1 == u))) u = none := by
  induction m with
  | nil => simp [lookupMem]
  | cons p rest ih =>
    obtain ⟨k, v⟩ := p
    by_cases h : k = u
    · subst h
      simpa [List.filter_cons] using ih
    · simp [List.filter_cons, h, lookupMem, ih]

theorem filter_eq_self_of_lookupMem_none (m : List (String × List HistEntry))
    (u : String) (h : lookupMem m u = none) :
    m.filter (fun p => !(p.1 == u)) = m := by
  induction m with
  | nil => rfl
  | cons p rest ih =>
    obtain ⟨k, v⟩ := p
    by_cases hp : k = u
    · subst hp
      simp [lookupMem] at h
    · simp only [lookupMem, if_neg hp] at h
      simp [List.filter_cons, hp, ih h]

/-! ### Helper lemmas about the agent operations -/

theorem get_user_memory_lenders (a : Agent) (u : String) :
    (get_user_memory a u).lenders = a.lenders := by
  unfold get_user_memory
  cases lookupMem a.memory u <;> rfl

theorem get_user_memory_recStore (a : Agent) (u : String) :
    (get_user_memory a u).recStore = a.recStore := by
  unfold get_user_memory
  cases lookupMem a.memory u <;> rfl

theorem historyOf_get_user_memory (a : Agent) (u v : String) :
    historyOf (get_user_memory a u) v = historyOf a v := by
  unfold get_user_memory historyOf
  cases h : lookupMem a.memory u with
  | some w => rfl
  | none =>
    simp only [lookupMem_append]
    cases hv : lookupMem a.memory v with
    | some w => rfl
    | none =>
      by_cases huv : u = v
      · subst huv; rw [h] at hv; simp
      · simp [huv]

theorem lookupMem_get_user_memory_self (a : Agent) (u : String) :
    lookupMem (get_user_memory a u).memory u = some (historyOf a u) := by
  unfold get_user_memory historyOf
  cases h : lookupMem a.memory u with
  | some w => simp [h]
  | none => simp [lookupMem_append, h]

theorem get_user_memory_of_lookup_some (a : Agent) (u : String) (w : List HistEntry)
    (h : lookupMem a.memory u = some w) : get_user_memory a u = a := by
  unfold get_user_memory
  rw [h]

theorem get_user_memory_idem (a : Agent) (u : String) :
    get_user_memory (get_user_memory a u) u = get_user_memory a u :=
  get_user_memory_of_lookup_some _ _ _ (lookupMem_get_user_memory_self a u)

theorem _gch_fst (a : Agent) (u : String) :
    (_get_conversation_history a u).1 = get_user_memory a u := rfl

theorem _gch_snd (a : Agent) (u : String) :
    (_get_conversation_history a u).2 = historyOf a u := by
  unfold _get_conversation_history
  simp [historyOf_get_user_memory]

theorem save_context_lenders (a : Agent) (u i o : String) :
    (save_context a u i o).lenders = a.lenders := rfl

theorem save_context_recStore (a : Agent) (u i o : String) :
    (save_context a u i o).recStore = a.recStore := rfl

theorem historyOf_save_context_self (a : Agent) (u i o : String)
    (hist : List HistEntry) (h : lookupMem a.memory u = some hist) :
    historyOf (save_context a u i o) u =
      hist ++ [HistEntry.msg "human" i, HistEntry.msg "ai" o] := by
  unfold save_context historyOf
  simp [lookupMem_updateMem_self, h]

theorem historyOf_save_context_ne (a : Agent) (u v i o : String) (hne : v ≠ u) :
    historyOf (save_context a u i o) v = historyOf a v := by
  unfold save_context historyOf
  simp [lookupMem_updateMem_ne _ _ _ _ hne]

theorem store_recommendation_lenders (a : Agent) (sd : StudentDetails) (r u : String) :
    (store_recommendation a sd r u).lenders = a.lenders := rfl

theorem store_recommendation_memory (a : Agent) (sd : StudentDetails) (r u : String) :
    (store_recommendation a sd r u).memory = a.memory := rfl

theorem historyOf_store_recommendation (a : Agent) (sd : StudentDetails)
    (r u : String) (v : String) :
    historyOf (store_recommendation a sd r u) v = historyOf a v := rfl

/-! ### Characterization of the follow-up sub-pipeline -/

theorem gqr_fst (env : Env) (a : Agent) (q u : String) :
    (get_query_recommendation env a q u).1 = get_user_memory a u := by
  simp only [get_query_recommendation, _gch_fst, _gch_snd]
  cases env.predict (followup_prompt (strOfHistory (historyOf a u)) q) <;> rfl

theorem gqr_val (env : Env) (a : Agent) (q u : String) :
    (get_query_recommendation env a q u).2.1 =
      match env.predict (followup_prompt (strOfHistory (historyOf a u)) q) with
      | Except.ok r => r
      | Except.error e =>
          "An error occurred while generating question recommendations: " ++ e := by
  simp only [get_query_recommendation, _gch_fst, _gch_snd]
  cases env.predict (followup_prompt (strOfHistory (historyOf a u)) q) <;> rfl

theorem gqr_trace (env : Env) (a : Agent) (q u : String) :
    (get_query_recommendation env a q u).2.2 =
      [Event.predictCall (followup_prompt (strOfHistory (historyOf a u)) q)] := by
  simp only [get_query_recommendation, _gch_fst, _gch_snd]
  cases env.predict (followup_prompt (strOfHistory (historyOf a u)) q) <;> rfl

/-! ### Characterization of one orchestrator call -/

theorem glr_agent (env : Env) (a : Agent) (sd : StudentDetails) (m u : String) :
    (get_loan_recommendation env a sd m u).agent =
      match mainResponse env a.lenders sd m (historyOf a u) with
      | none => get_user_memory a u
      | some r =>
          store_recommendation (save_context (get_user_memory a u) u m r) sd r u := by
  unfold mainResponse
  simp only [get_loan_recommendation, _gch_snd, historyOf_get_user_memory,
    get_user_memory_lenders]
  split
  · rfl
  · split
    · simp [gqr_fst, get_user_memory_idem]
    · simp [gqr_fst, get_user_memory_idem]

theorem glr_result_cases (env : Env) (a : Agent) (sd : StudentDetails) (m u : String) :
    (mainResponse env a.lenders sd m (historyOf a u) = none ∧
      ∃ e, (get_loan_recommendation env a sd m u).result =
        [("error", "An error occurred while generating a recommendation: " ++ e)]) ∨
    (∃ r, mainResponse env a.lenders sd m (historyOf a u) = some r ∧
      (get_loan_recommendation env a sd m u).result =
        [("response", r), ("query_recommendation",
          (get_query_recommendation env (get_user_memory a u) m u).2.1)]) := by
  unfold mainResponse
  simp only [get_loan_recommendation, _gch_snd, historyOf_get_user_memory,
    get_user_memory_lenders]
  split
  · rename_i e heq
    exact Or.inl ⟨rfl, e, rfl⟩
  · rename_i inputs heq
    split
    · rename_i e heq2
      exact Or.inl ⟨rfl, e, rfl⟩
    · rename_i r heq2
      exact Or.inr ⟨r, rfl, rfl⟩

theorem glr_result_ok (env : Env) (a : Agent) (sd : StudentDetails) (m u r : String)
    (h : mainResponse env a.lenders sd m (historyOf a u) = some r) :
    (get_loan_recommendation env a sd m u).result =
      [("response", r), ("query_recommendation",
        (get_query_recommendation env (get_user_memory a u) m u).2.1)] := by
  rcases glr_result_cases env a sd m u with ⟨hn, _⟩ | ⟨r2, hr2, hres⟩
  · rw [h] at hn; exact absurd hn (by simp)
  · rw [h] at hr2
    obtain rfl : r2 = r := by injection hr2.symm
    exact hres

theorem glr_result_err (env : Env) (a : Agent) (sd : StudentDetails) (m u : String)
    (h : mainResponse env a.lenders sd m (historyOf a u) = none) :
    ∃ e, (get_loan_recommendation env a sd m u).result =
      [("error", "An error occurred while generating a recommendation: " ++ e)] := by
  rcases glr_result_cases env a sd m u with ⟨_, he⟩ | ⟨r2, hr2, _⟩
  · exact he
  · rw [h] at hr2; exact absurd hr2 (by simp)

theorem prep_trace_no_predict (env : Env) (lenders : List Lender)
    (sd : StudentDetails) (m : String) (hist : List HistEntry) :
    ((_prepare_recommendation_inputs env lenders sd m hist).2).filter isPredict = [] := by
  unfold _prepare_recommendation_inputs
  split
  · rfl
  · split
    · rfl
    · split
      · rfl
      · split <;> rfl

theorem glr_trace_predicts (env : Env) (a : Agent) (sd : StudentDetails) (m u : String) :
    ((get_loan_recommendation env a sd m u).trace.filter isPredict).length ≤ 2 := by
  simp only [get_loan_recommendation, _gch_snd, historyOf_get_user_memory,
    get_user_memory_lenders]
  split
  · simp [prep_trace_no_predict]
  · split <;>
      simp [List.filter_append, prep_trace_no_predict, gqr_trace,
        historyOf_get_user_memory, isPredict]

theorem glr_lenders (env : Env) (a : Agent) (sd : StudentDetails) (m u : String) :
    (get_loan_recommendation env a sd m u).agent.lenders = a.lenders := by
  rw [glr_agent]
  cases mainResponse env a.lenders sd m (historyOf a u) with
  | none => exact get_user_memory_lenders a u
  | some r =>
    rw [store_recommendation_lenders, save_context_lenders]
    exact get_user_memory_lenders a u

theorem glr_history_self (env : Env) (a : Agent) (sd : StudentDetails) (m u : String) :
    historyOf (get_loan_recommendation env a sd m u).agent u =
      historyOf a u ++
        (match mainResponse env a.lenders sd m (historyOf a u) with
         | some r => [HistEntry.msg "human" m, HistEntry.msg "ai" r]
         | none => []) := by
  rw [glr_agent]
  cases mainResponse env a.lenders sd m (historyOf a u) with
  | none => simp [historyOf_get_user_memory]
  | some r =>
    rw [historyOf_store_recommendation,
      historyOf_save_context_self _ _ _ _ _ (lookupMem_get_user_memory_self a u)]

theorem glr_history_ne (env : Env) (a : Agent) (sd : StudentDetails) (m u v : String)
    (hvu : v ≠ u) :
    historyOf (get_loan_recommendation env a sd m u).agent v = historyOf a v := by
  rw [glr_agent]
  cases mainResponse env a.lenders sd m (historyOf a u) with
  | none => exact historyOf_get_user_memory a u v
  | some r =>
    rw [historyOf_store_recommendation, historyOf_save_context_ne _ _ _ _ _ hvu]
    exact historyOf_get_user_memory a u v

theorem glr_resultIsOk (env : Env) (a : Agent) (sd : StudentDetails) (m u : String) :
    resultIsOk (get_loan_recommendation env a sd m u).result =
      (mainResponse env a.lenders sd m (historyOf a u)).isSome := by
  cases h : mainResponse env a.lenders sd m (historyOf a u) with
  | none =>
    obtain ⟨e, he⟩ := glr_result_err env a sd m u h
    rw [he]
    rfl
  | some r =>
    rw [glr_result_ok env a sd m u r h]
    simp [resultIsOk]

theorem glr_history_none (env : Env) (a : Agent) (sd : StudentDetails) (m u : String)
    (h : mainResponse env a.lenders sd m (historyOf a u) = none) :
    ∀ v, historyOf (get_loan_recommendation env a sd m u).agent v = historyOf a v := by
  intro v
  by_cases hv : v = u
  · subst hv
    rw [glr_history_self, h]
    simp
  · exact glr_history_ne env a sd m u v hv

theorem glr_recStore_none (env : Env) (a : Agent) (sd : StudentDetails) (m u : String)
    (h : mainResponse env a.lenders sd m (historyOf a u) = none) :
    (get_loan_recommendation env a sd m u).agent.recStore = a.recStore := by
  rw [glr_agent, h]
  exact get_user_memory_recStore a u

theorem mainResponse_none_of_search_error (env : Env) (lenders : List Lender)
    (sd : StudentDetails) (m : String) (hist : List HistEntry) (d amt e : String)
    (hd : dget sd "destination_country" = some d)
    (ha : dget sd "loan_amount_needed" = some amt)
    (hs : env.searchLenders (d ++ " " ++ amt) = Except.error e) :
    mainResponse env lenders sd m hist = none := by
  unfold mainResponse _prepare_recommendation_inputs
  simp only [hd, ha]
  split
  · rfl
  · rename_i inputs heq
    exfalso
    cases hf : env.findSimilar sd with
    | error e2 => simp [hf] at heq
    | ok s => simp [hf, hs] at heq

/-! ### Lemmas about turn shapes -/

theorem alternating_append (xs : List HistEntry) (x y : HistEntry)
    (hx : isHuman x = true) (hy : isAi y = true) (h : alternatingTurns xs = true) :
    alternatingTurns (xs ++ [x, y]) = true := by
  match xs with
  | [] => simp [alternatingTurns, hx, hy]
  | [a] => simp [alternatingTurns] at h
  | a :: b :: rest =>
    simp only [alternatingTurns, Bool.and_eq_true] at h
    simp only [List.cons_append, alternatingTurns, Bool.and_eq_true]
    exact ⟨h.1, alternating_append rest x y hx hy h.2⟩

theorem studentContents_append_pair (xs : List HistEntry) (m r : String) :
    studentContents (xs ++ [HistEntry.msg "human" m, HistEntry.msg "ai" r]) =
      studentContents xs ++ [m] := by
  simp [studentContents, List.filterMap_append]

/-! ### Run-level lemmas -/

theorem run_history_aux (env : Env) (u : String) (calls : List Call) :
    ∀ a : Agent, (∀ c ∈ calls, c.uid = u) → allSucceed env a calls = true →
      (historyOf (runCalls env a calls) u).length =
          (historyOf a u).length + 2 * calls.length ∧
      studentContents (historyOf (runCalls env a calls) u) =
          studentContents (historyOf a u) ++ calls.map (fun c => c.msg) ∧
      (alternatingTurns (historyOf a u) = true →
        alternatingTurns (historyOf (runCalls env a calls) u) = true) := by
  induction calls with
  | nil =>
    intro a _ _
    simp [runCalls]
  | cons c cs ih =>
    intro a hu hs
    have hcu : c.uid = u := hu c (List.mem_cons_self c cs)
    simp only [allSucceed, Bool.and_eq_true] at hs
    have hok : (mainResponse env a.lenders c.sd c.msg (historyOf a c.uid)).isSome = true := by
      rw [← glr_resultIsOk]
      exact hs.1
    obtain ⟨r, hr⟩ := Option.isSome_iff_exists.mp hok
    have hstep : historyOf (get_loan_recommendation env a c.sd c.msg c.uid).agent u =
        historyOf a u ++ [HistEntry.msg "human" c.msg, HistEntry.msg "ai" r] := by
      rw [← hcu]
      have hstep0 := glr_history_self env a c.sd c.msg c.uid
      simp only [hr] at hstep0
      exact hstep0
    obtain ⟨hl, hsc, halt⟩ := ih (get_loan_recommendation env a c.sd c.msg c.uid).agent
      (fun c2 h2 => hu c2 (List.mem_cons_of_mem _ h2)) hs.2
    rw [hstep] at hl hsc halt
    refine ⟨?_, ?_, ?_⟩
    · simp only [runCalls]
      rw [hl]
      simp only [List.length_append, List.length_cons, List.length_nil]
      omega
    · simp only [runCalls]
      rw [hsc, studentContents_append_pair]
      simp [List.map_cons]
    · intro halt0
      simp only [runCalls]
      exact halt (alternating_append _ _ _ rfl rfl halt0)

theorem run_history_filter (env : Env) (B : String) (calls : List Call) :
    ∀ a : Agent, historyOf (runCalls env a calls) B =
      historyOf a B ++
        turnsFor env a.lenders (historyOf a B) (calls.filter (fun c => c.uid == B)) := by
  induction calls with
  | nil =>
    intro a
    simp [runCalls, turnsFor]
  | cons c cs ih =>
    intro a
    by_cases hcB : c.uid = B
    · have hfil : (c :: cs).filter (fun c => c.uid == B) =
          c :: cs.filter (fun c => c.uid == B) := by
        simp [List.filter_cons, hcB]
      cases hr : mainResponse env a.lenders c.sd c.msg (historyOf a c.uid) with
      | some r =>
        have hstep : historyOf (get_loan_recommendation env a c.sd c.msg c.uid).agent B =
            historyOf a B ++ [HistEntry.msg "human" c.msg, HistEntry.msg "ai" r] := by
          rw [← hcB]
          have hstep0 := glr_history_self env a c.sd c.msg c.uid
          simp only [hr] at hstep0
          exact hstep0
        rw [hcB] at hr
        simp only [runCalls]
        rw [ih, hstep, glr_lenders, hfil]
        simp only [turnsFor, hr]
        simp [List.append_assoc]
      | none =>
        have hstep : historyOf (get_loan_recommendation env a c.sd c.msg c.uid).agent B =
            historyOf a B := by
          rw [← hcB]
          have hstep0 := glr_history_self env a c.sd c.msg c.uid
          simp only [hr] at hstep0
          simpa using hstep0
        rw [hcB] at hr
        simp only [runCalls]
        rw [ih, hstep, glr_lenders, hfil]
        simp only [turnsFor, hr]
    · have hfil : (c :: cs).filter (fun c => c.uid == B) =
          cs.filter (fun c => c.uid == B) := by
        simp [List.filter_cons, hcB]
      have hstep : historyOf (get_loan_recommendation env a c.sd c.msg c.uid).agent B =
          historyOf a B :=
        glr_history_ne env a c.sd c.msg c.uid B (fun hBu => hcB hBu.symm)
      simp only [runCalls]
      rw [ih, hstep, glr_lenders, hfil]

/-! ### Claim theorems -/

/-- Claim C1: for every input, `get_loan_recommendation` catches any exception
raised anywhere in its pipeline and returns a structured result — either the
error dict or the success dict — never propagating an exception to its caller;
and it never retries: its trace holds at most two model calls. -/
theorem C1_failure_contained (env : Env) (a : Agent) (sd : StudentDetails)
    (m u : String) :
    ((∃ e, (get_loan_recommendation env a sd m u).result =
        [("error", "An error occurred while generating a recommendation: " ++ e)]) ∨
      (∃ r q, (get_loan_recommendation env a sd m u).result =
        [("response", r), ("query_recommendation", q)])) ∧
    ((get_loan_recommendation env a sd m u).trace.filter isPredict).length ≤ 2 := by
  refine ⟨?_, glr_trace_predicts env a sd m u⟩
  rcases glr_result_cases env a sd m u with ⟨_, he⟩ | ⟨r, _, hres⟩
  · exact Or.inl he
  · exact Or.inr ⟨r, _, hres⟩

/-- Claim C2: if the lender-search sub-task raises, `get_loan_recommendation`
returns a structured error, every user's conversation history is left
unchanged, and the recommendation history store is left unchanged. -/
theorem C2_search_failure_no_writes (env : Env) (a : Agent) (sd : StudentDetails)
    (m u d amt e : String)
    (hd : dget sd "destination_country" = some d)
    (ha : dget sd "loan_amount_needed" = some amt)
    (hs : env.searchLenders (d ++ " " ++ amt) = Except.error e) :
    (∃ e2, (get_loan_recommendation env a sd m u).result = [("error", e2)]) ∧
    (∀ v, historyOf (get_loan_recommendation env a sd m u).agent v = historyOf a v) ∧
    (get_loan_recommendation env a sd m u).agent.recStore = a.recStore := by
  have hn := mainResponse_none_of_search_error env a.lenders sd m (historyOf a u)
    d amt e hd ha hs
  obtain ⟨e2, he2⟩ := glr_result_err env a sd m u hn
  exact ⟨⟨_, he2⟩, glr_history_none env a sd m u hn, glr_recStore_none env a sd m u hn⟩

/-- Claim C2, witness: a concrete run in which the lender search fails. -/
theorem C2_witness :
    dget sdW "destination_country" = some "USA" ∧
    dget sdW "loan_amount_needed" = some "50000" ∧
    envSearchFail.searchLenders ("USA" ++ " " ++ "50000") =
      Except.error "search backend down" ∧
    ((∃ e2, (get_loan_recommendation envSearchFail agentW sdW "hi" "u1").result =
        [("error", e2)]) ∧
      (∀ v, historyOf (get_loan_recommendation envSearchFail agentW sdW "hi" "u1").agent v =
        historyOf agentW v) ∧
      (get_loan_recommendation envSearchFail agentW sdW "hi" "u1").agent.recStore =
        agentW.recStore) :=
  ⟨rfl, rfl, rfl,
    C2_search_failure_no_writes envSearchFail agentW sdW "hi" "u1" "USA" "50000"
      "search backend down" rfl rfl rfl⟩

/-- Claim C3: if context aggregation and the main model call succeed but the
follow-up model call fails, the result still carries the valid response and an
inline error string as the query recommendation, and no exception escapes. -/
theorem C3_followup_failure_inline (env : Env) (a : Agent) (sd : StudentDetails)
    (m u : String) (inputs : Inputs) (r e : String)
    (hp : (_prepare_recommendation_inputs env a.lenders sd m (historyOf a u)).1 =
      Except.ok inputs)
    (hm : env.predict (recommendation_prompt inputs.lenders_data inputs.student_details
        inputs.conversation_history inputs.student_message) = Except.ok r)
    (hq : env.predict (followup_prompt (strOfHistory (historyOf a u)) m) =
      Except.error e) :
    (get_loan_recommendation env a sd m u).result =
      [("response", r),
       ("query_recommendation",
        "An error occurred while generating question recommendations: " ++ e)] := by
  have hmr : mainResponse env a.lenders sd m (historyOf a u) = some r := by
    unfold mainResponse
    simp only [hp, hm]
  rw [glr_result_ok env a sd m u r hmr, gqr_val, historyOf_get_user_memory, hq]

/-- Claim C3, witness: a concrete run in which only the follow-up call fails. -/
theorem C3_witness :
    (_prepare_recommendation_inputs envFollowupFail agentW.lenders sdW "hi"
        (historyOf agentW "u1")).1 = Except.ok inputsC3 ∧
    envFollowupFail.predict (recommendation_prompt inputsC3.lenders_data
        inputsC3.student_details inputsC3.conversation_history
        inputsC3.student_message) = Except.ok "MAIN" ∧
    envFollowupFail.predict (followup_prompt (strOfHistory (historyOf agentW "u1")) "hi") =
      Except.error "model down" ∧
    (get_loan_recommendation envFollowupFail agentW sdW "hi" "u1").result =
      [("response", "MAIN"),
       ("query_recommendation",
        "An error occurred while generating question recommendations: " ++ "model down")] :=
  ⟨rfl, rfl, rfl,
    C3_followup_failure_inline envFollowupFail agentW sdW "hi" "u1" inputsC3 "MAIN"
      "model down" rfl rfl rfl⟩

/-- Claim C4: starting from an empty history, N successive successful calls for
one user leave exactly 2 times N turns, alternating student then counselor,
with the student turns carrying the calls' messages in processing order — each
call appends its pair regardless of duplicate content. -/
theorem C4_history_growth (env : Env) (a : Agent) (u : String) (calls : List Call)
    (hu : ∀ c ∈ calls, c.uid = u)
    (h0 : historyOf a u = [])
    (hs : allSucceed env a calls = true) :
    (historyOf (runCalls env a calls) u).length = 2 * calls.length ∧
    alternatingTurns (historyOf (runCalls env a calls) u) = true ∧
    studentContents (historyOf (runCalls env a calls) u) =
      calls.map (fun c => c.msg) := by
  obtain ⟨hl, hsc, halt⟩ := run_history_aux env u calls a hu hs
  rw [h0] at hl hsc halt
  refine ⟨by simpa using hl, halt rfl, by simpa [studentContents] using hsc⟩

/-- Claim C4, witness: two successful calls with identical content for one user. -/
theorem C4_witness :
    (∀ c ∈ callsW, c.uid = "u1") ∧
    historyOf agentW "u1" = [] ∧
    allSucceed envOK agentW callsW = true ∧
    ((historyOf (runCalls envOK agentW callsW) "u1").length = 2 * callsW.length ∧
      alternatingTurns (historyOf (runCalls envOK agentW callsW) "u1") = true ∧
      studentContents (historyOf (runCalls envOK agentW callsW) "u1") =
        callsW.map (fun c => c.msg)) :=
  ⟨by decide, rfl, by decide,
    C4_history_growth envOK agentW "u1" callsW (by decide) rfl (by decide)⟩

/-- Claim C5: resetting a conversation and then reading the history yields the
empty sequence, and resetting a user who has no conversation is a no-op that
leaves the agent unchanged (and raises no error). -/
theorem C5_reset_then_empty (a : Agent) (u : String) :
    (_get_conversation_history (reset_conversation a u) u).2 = [] ∧
    (lookupMem a.memory u = none → reset_conversation a u = a) := by
  constructor
  · rw [_gch_snd]
    unfold reset_conversation historyOf
    simp [lookupMem_filter_self]
  · intro h
    unfold reset_conversation
    rw [filter_eq_self_of_lookupMem_none a.memory u h]

/-- Claim C5, witness: resetting a user with no conversation on a fresh agent. -/
theorem C5_witness :
    lookupMem agentW.memory "u1" = none ∧
    (_get_conversation_history (reset_conversation agentW "u1") "u1").2 = [] ∧
    reset_conversation agentW "u1" = agentW :=
  ⟨rfl, (C5_reset_then_empty agentW "u1").1, (C5_reset_then_empty agentW "u1").2 rfl⟩

/-- Claim C6, counterexample: the history-read operation does mutate the
per-user memory map when the user is unseen — reading history for "u1" on a
fresh agent inserts an empty buffer, so the memory map changes. -/
theorem C6_counterexample :
    ¬ ((_get_conversation_history agentW "u1").1.memory = agentW.memory) := by
  decide

/-- Claim C6, amended: the history-read operation returns the user's current
ordered turns (empty if none) and leaves every user's conversation history, the
recommendation store and the catalog unchanged; however, it lazily creates an
empty memory entry for a previously unseen user_id, so the per-user memory map
itself may gain a key. -/
theorem C6_history_read_amended (a : Agent) (u : String) :
    (_get_conversation_history a u).2 = historyOf a u ∧
    (∀ v, historyOf (_get_conversation_history a u).1 v = historyOf a v) ∧
    (_get_conversation_history a u).1.recStore = a.recStore ∧
    (_get_conversation_history a u).1.lenders = a.lenders :=
  ⟨_gch_snd a u,
    fun v => by rw [_gch_fst]; exact historyOf_get_user_memory a u v,
    by rw [_gch_fst]; exact get_user_memory_recStore a u,
    by rw [_gch_fst]; exact get_user_memory_lenders a u⟩

/-- Claim C7: under any interleaving of calls for any set of users, a user B's
history afterward is B's prior history followed exactly by the turn pairs of
B's own calls, in order — calls for any other user A contribute nothing, so
conversation histories are never interleaved across users. -/
theorem C7_no_cross_user_interleaving (env : Env) (a : Agent) (calls : List Call)
    (B : String) :
    historyOf (runCalls env a calls) B =
      historyOf a B ++
        turnsFor env a.lenders (historyOf a B) (calls.filter (fun c => c.uid == B)) :=
  run_history_filter env B calls a

/-- Claim C8: whenever aggregation succeeds, the conversation-summary input is
the newline-joined "role: content" rendering of the full history in original
order; a malformed entry is rendered as its raw textual form; and the history
content never causes the aggregation itself to fail. -/
theorem C8_conversation_summary (env : Env) (lenders : List Lender)
    (sd : StudentDetails) (m : String) (hist : List HistEntry) (inputs : Inputs)
    (hp : (_prepare_recommendation_inputs env lenders sd m hist).1 = Except.ok inputs) :
    inputs.conversation_history = String.intercalate "\n" (hist.map summaryLine) ∧
    (∀ s, summaryLine (HistEntry.raw s) = s) ∧
    (∀ hist2 : List HistEntry, ∃ inputs2 : Inputs,
      (_prepare_recommendation_inputs env lenders sd m hist2).1 = Except.ok inputs2 ∧
      inputs2.conversation_history = String.intercalate "\n" (hist2.map summaryLine)) := by
  unfold _prepare_recommendation_inputs at hp
  split at hp
  · simp at hp
  · rename_i dest hd
    split at hp
    · simp at hp
    · rename_i amt ha
      split at hp
      · simp at hp
      · rename_i s hf
        split at hp
        · simp at hp
        · rename_i t hsr
          simp only [Except.ok.injEq] at hp
          subst hp
          refine ⟨rfl, fun s2 => rfl, fun hist2 => ?_⟩
          refine ⟨{ lenders_data := format_lenders_data lenders,
                    student_details := env.jsonDumps sd,
                    similar_cases := s, matching_lenders := t, student_message := m,
                    conversation_history :=
                      String.intercalate "\n" (hist2.map summaryLine) }, ?_, rfl⟩
          unfold _prepare_recommendation_inputs
          simp [hd, ha, hf, hsr]

/-- Claim C8, witness: a history holding a message object, a dict without a
type key, and a raw malformed entry. -/
theorem C8_witness :
    (_prepare_recommendation_inputs envOK [] sdW "hi" histW).1 = Except.ok inputsC8 ∧
    (inputsC8.conversation_history = String.intercalate "\n" (histW.map summaryLine) ∧
      (∀ s, summaryLine (HistEntry.raw s) = s) ∧
      (∀ hist2 : List HistEntry, ∃ inputs2 : Inputs,
        (_prepare_recommendation_inputs envOK [] sdW "hi" hist2).1 = Except.ok inputs2 ∧
        inputs2.conversation_history = String.intercalate "\n" (hist2.map summaryLine))) :=
  ⟨rfl, C8_conversation_summary envOK [] sdW "hi" histW inputsC8 rfl⟩

/-- Claim C9: the recommendation-prompt rendering is a pure function of
exactly (lenders_data, student_details text, conversation_history text,
student_message): two runs with identical inputs render identical strings, and
rendering touches no state. -/
theorem C9_prompt_rendering_pure (ld sd ch sm ld2 sd2 ch2 sm2 : String)
    (h1 : ld = ld2) (h2 : sd = sd2) (h3 : ch = ch2) (h4 : sm = sm2) :
    recommendation_prompt ld sd ch sm = recommendation_prompt ld2 sd2 ch2 sm2 := by
  rw [h1, h2, h3, h4]

/-- Claim C9, witness: the rendering evaluated twice on equal concrete inputs. -/
theorem C9_witness :
    ("L" : String) = "L" ∧ ("S" : String) = "S" ∧ ("H" : String) = "H" ∧
    ("M" : String) = "M" ∧
    recommendation_prompt "L" "S" "H" "M" = recommendation_prompt "L" "S" "H" "M" :=
  ⟨rfl, rfl, rfl, rfl, C9_prompt_rendering_pure "L" "S" "H" "M" "L" "S" "H" "M" rfl rfl rfl rfl⟩

/-- Claim C10: the orchestrator always returns a non-empty dict — the success
shape or the error shape — so the falsy-result fallback branch in
`handle_chat_request` never re-submits the recommendation: dispatch returns the
first call's result unchanged. -/
theorem C10_dispatch_fallback_unreachable (env : Env) (a : Agent)
    (sd : StudentDetails) (m u : String) :
    (get_loan_recommendation env a sd m u).result ≠ [] ∧
    handle_chat_dispatch env a sd m u = get_loan_recommendation env a sd m u := by
  have hne : (get_loan_recommendation env a sd m u).result ≠ [] := by
    rcases glr_result_cases env a sd m u with ⟨_, e, he⟩ | ⟨r, _, hres⟩
    · rw [he]; simp
    · rw [hres]; simp
  refine ⟨hne, ?_⟩
  simp only [handle_chat_dispatch, resultTruthy]
  cases hres : (get_loan_recommendation env a sd m u).result with
  | nil => exact absurd hres hne
  | cons p rest => simp [hres]

end LoanAgent
